import Mathlib

set_option maxHeartbeats 1000000

/-!
Shallow embedding of the client-side zip-to-preview pipeline of this
repository (the `handleRunProject` orchestrator and its `updateLocal`
state updater in `src/App.tsx`, over the types of `types.ts`), together
with the two `projectsService` variants found in `src/unnamed/part_001`,
and proofs of the specification's claims about them.

Modelling conventions:
- JavaScript strings are Lean `String`s; the JS operations
  `toLowerCase` / `endsWith` / "first character" are embedded as the
  executable functions `jsToLower` / `endsWithJs` / `isErrLine` below.
- The JSZip library is an external collaborator: a downloaded blob is
  modelled by its observable behaviour, namely a size display string and
  the outcome of `JSZip.loadAsync` (either a decode error message or the
  list of zip entries, each with its path, directory flag and text
  content).  `zip.forEach` iterates the `zip.files` object, whose keys
  are unique entry paths.
- The concurrent `file.async("string")` decodes of the non-directory
  entries complete in an arbitrary order; that completion order is the
  explicit `order` argument of the pipeline, constrained in the theorems
  to be a permutation of the non-directory entries.
- `URL.createObjectURL` is modelled by a blob-URL store (a list of
  handle/content pairs); a fresh handle is derived from the store size.
-/

/-- JS `String.prototype.toLowerCase`, modelled character by character. -/
def jsToLower (s : String) : String := ⟨s.data.map Char.toLower⟩

/-- JS `String.prototype.endsWith`: `t` is a suffix of `s`. -/
def endsWithJs (s t : String) : Bool := decide (t.data <:+ s.data)

/-- Whether a log line is prefixed with the error sigil, i.e. its first
character is an exclamation mark (the UI colours such lines red). -/
def isErrLine (l : String) : Bool :=
  match l.data with
  | [] => false
  | c :: _ => c == '!'

/-- Status enum `ProjectStatus` from `types.ts`. -/
inductive ProjectStatus where
  | available
  | downloading
  | extracting
  | validating
  | running
  | error
deriving DecidableEq, Repr

/-- Content-type discriminant of a `VirtualFile` from `types.ts`. -/
inductive VType where
  | text
  | binary
deriving DecidableEq, Repr

/-- Interface `VirtualFile` from `types.ts`.  The pipeline only ever
stores text content, so content is a `String`. -/
structure VirtualFile where
  path : String
  content : String
  type : VType
deriving DecidableEq, Repr

/-- One entry of a decoded zip, as exposed by JSZip's `zip.forEach`
callback: the relative path, the directory flag `file.dir`, and the text
content that `file.async("string")` resolves to. -/
structure ZipEntry where
  path : String
  dir : Bool
  content : String
deriving DecidableEq, Repr

/-- A downloaded blob, modelled by its observable behaviour: the
formatted size shown in the extraction log line, and the outcome of
`JSZip.loadAsync` on it (decode error message, or entry list). -/
structure Blob where
  sizeDisplay : String
  decode : Except String (List ZipEntry)
deriving Repr

/-- Outcome of `projectsService.downloadZip` as observed by the
orchestrator: a thrown error (with its message) or a blob. -/
inductive DownloadResult where
  | failure (msg : String)
  | success (blob : Blob)
deriving Repr

/-- Interface `LocalProject` from `types.ts`. -/
structure LocalProject where
  id : String
  name : String
  files : List String
  status : ProjectStatus
  previewUrl : Option String
  logs : List String
  fileSystem : Option (List (String × VirtualFile))
deriving DecidableEq, Repr

/-- An argument to `updateLocal` in `src/App.tsx`: a `Partial<LocalProject>`
restricted to the fields the pipeline actually patches.  A `none` field is
absent from the JS object literal. -/
structure ProjectPatch where
  status : Option ProjectStatus := none
  previewUrl : Option String := none
  logs : Option (List String) := none
  fileSystem : Option (List (String × VirtualFile)) := none
deriving DecidableEq, Repr

/-- The body of `updateLocal` in `src/App.tsx`:
`{ ...p, ...partial, logs: partial.logs ? [...p.logs, ...partial.logs] : p.logs }`.
Fields present in the patch overwrite, except `logs`, which is appended. -/
def applyPatch (p : LocalProject) (q : ProjectPatch) : LocalProject :=
  { id := p.id
    name := p.name
    files := p.files
    status := q.status.getD p.status
    previewUrl := match q.previewUrl with
      | some u => some u
      | none => p.previewUrl
    logs := match q.logs with
      | some ls => p.logs ++ ls
      | none => p.logs
    fileSystem := match q.fileSystem with
      | some fs => some fs
      | none => p.fileSystem }

/-- JS object key-presence test on the `fs` record. -/
def hasKey (fs : List (String × VirtualFile)) (k : String) : Bool :=
  fs.any (fun pr => pr.1 == k)

/-- JS object property assignment `fs[k] = v`:  an existing key keeps its
position and gets the new value, a new key is appended (JS objects with
string keys enumerate in insertion order). -/
def recordInsert (fs : List (String × VirtualFile)) (k : String) (v : VirtualFile) :
    List (String × VirtualFile) :=
  if hasKey fs k then fs.map (fun pr => if pr.1 == k then (k, v) else pr)
  else fs ++ [(k, v)]

/-- `Object.keys(fs)` in enumeration order. -/
def recordKeys (fs : List (String × VirtualFile)) : List String := fs.map Prod.fst

/-- JS property read `fs[k]`. -/
def recordGet (fs : List (String × VirtualFile)) (k : String) : Option VirtualFile :=
  (fs.find? (fun pr => pr.1 == k)).map Prod.snd

/-- The `VirtualFile` stored for a decoded entry:
`fs[path] = { path, content, type: "text" }` in `src/App.tsx`. -/
def toVirtualFile (e : ZipEntry) : VirtualFile := ⟨e.path, e.content, VType.text⟩

/-- The non-directory entries of a decoded archive (`if (!file.dir)`). -/
def nonDirEntries (es : List ZipEntry) : List ZipEntry :=
  es.filter (fun e => !e.dir)

/-- The `fs` record after `await Promise.all(filePromises)`: the entry
decodes complete in the order given by `order`, each performing
`fs[path] = { path, content, type: "text" }`. -/
def buildFs (order : List ZipEntry) : List (String × VirtualFile) :=
  order.foldl (fun fs e => recordInsert fs e.path (toVirtualFile e)) []

/-- The entry-point test applied to each key in `src/App.tsx`:
`k.toLowerCase().endsWith("index.html")`. -/
def entryCheck (k : String) : Bool := endsWithJs (jsToLower k) "index.html"

/-- The entry-point search of `src/App.tsx`:
`Object.keys(fs).find(k => k.toLowerCase().endsWith("index.html"))`. -/
def findIndexKey (fs : List (String × VirtualFile)) : Option String :=
  (recordKeys fs).find? entryCheck

/-- The validation outcome: the run proceeds to rendering exactly when
`findIndexKey` produced a key (`if (!indexKey) throw ...`). -/
def validateFs (fs : List (String × VirtualFile)) : Bool :=
  (findIndexKey fs).isSome

/-- Message of the error thrown when no entry point is found in
`src/App.tsx`. -/
def missingIndexMsg : String := "Arquivo \x27index.html\x27 não encontrado no ZIP."

/-- The catch-handler patch of `src/App.tsx`:
`updateLocal({ status: "error", logs: ["! ERRO: " + e.message] })`. -/
def errPatch (msg : String) : ProjectPatch :=
  { status := some ProjectStatus.error, logs := some ["! ERRO: " ++ msg] }

/-- Fresh blob-URL handle returned by the modelled `URL.createObjectURL`;
derived from the current store size, hence never the empty string. -/
def freshUrl (store : List (String × String)) : String :=
  "blob:devhub-" ++ toString store.length

/-- The sequence of `updateLocal` patches performed by one invocation of
`handleRunProject` in `src/App.tsx` (after the empty-files guard),
paired with the blob-URL registrations it performs.  `fileName` is
`project.files[0]`, `dl` the outcome of `downloadZip`, `order` the
completion order of the entry decodes, and `url` the handle
`URL.createObjectURL` returns on the success path. -/
def runSteps (fileName : String) (dl : DownloadResult) (order : List ZipEntry)
    (url : String) : List ProjectPatch × List (String × String) :=
  let p1 : ProjectPatch :=
    { status := some ProjectStatus.downloading
      logs := some ["> Baixando pacote: " ++ fileName] }
  match dl with
  | DownloadResult.failure msg => ([p1, errPatch msg], [])
  | DownloadResult.success blob =>
    let p2 : ProjectPatch :=
      { status := some ProjectStatus.extracting
        logs := some ["> ZIP recebido (" ++ blob.sizeDisplay ++ " KB). Extraindo..."] }
    match blob.decode with
    | Except.error msg => ([p1, p2, errPatch msg], [])
    | Except.ok _ =>
      let fs := buildFs order
      match findIndexKey fs with
      | none => ([p1, p2, errPatch missingIndexMsg], [])
      | some indexKey =>
        let htmlContent := ((recordGet fs indexKey).map VirtualFile.content).getD ""
        ([p1, p2,
          { status := some ProjectStatus.running
            previewUrl := some url
            logs := some ["> Executando sandbox em ambiente virtual."] }],
         [(url, htmlContent)])

/-- Result of one run: the updated project record and the blob-URL store. -/
structure RunResult where
  project : LocalProject
  store : List (String × String)
deriving DecidableEq, Repr

/-- `handleRunProject` from `src/App.tsx`: guard on an empty file list,
then apply the run's `updateLocal` patches in order, registering the
created blob URL in the store. -/
def handleRunProject (project : LocalProject) (dl : DownloadResult)
    (order : List ZipEntry) (store : List (String × String)) : RunResult :=
  if project.files.isEmpty then ⟨project, store⟩
  else
    let fileName := project.files.headD ""
    let url := freshUrl store
    let steps := runSteps fileName dl order url
    ⟨steps.1.foldl applyPatch project, store ++ steps.2⟩

/-- The sequence of statuses a run writes to the project, in order. -/
def statusTrace (project : LocalProject) (dl : DownloadResult)
    (order : List ZipEntry) : List ProjectStatus :=
  if project.files.isEmpty then []
  else ((runSteps (project.files.headD "") dl order (freshUrl [])).1).filterMap
    ProjectPatch.status

/-- Well-formedness of a decoded archive's entry list, as produced by
JSZip: the keys of the `zip.files` object are unique, and directory
entries are exactly those whose zip path carries a trailing slash. -/
def wellFormedEntries (es : List ZipEntry) : Prop :=
  (es.map ZipEntry.path).Nodup ∧ ∀ e ∈ es, e.dir = true → endsWithJs e.path "/" = true

instance (es : List ZipEntry) : Decidable (wellFormedEntries es) := by
  unfold wellFormedEntries
  infer_instance

/-- Rank of a status in the fixed forward sequence of the state machine. -/
def rank : ProjectStatus → Nat
  | ProjectStatus.available => 0
  | ProjectStatus.downloading => 1
  | ProjectStatus.extracting => 2
  | ProjectStatus.validating => 3
  | ProjectStatus.running => 4
  | ProjectStatus.error => 5

/-- Whether a status is terminal for a run. -/
def isTerminal : ProjectStatus → Bool
  | ProjectStatus.running => true
  | ProjectStatus.error => true
  | _ => false

/-- One admissible move of the orchestrator state machine: from a
non-terminal status, either forward along the fixed sequence
`available → downloading → extracting → (validating) → running`, or to
`error`; terminal statuses admit no move. -/
def stepOk (a b : ProjectStatus) : Bool :=
  if isTerminal a then false
  else match b with
    | ProjectStatus.error => true
    | _ => decide (rank a < rank b)

/-- A status sequence all of whose consecutive moves are admissible. -/
def chainOk : List ProjectStatus → Bool
  | [] => true
  | [_] => true
  | a :: b :: rest => stepOk a b && chainOk (b :: rest)

/-! ### Helper lemmas -/

theorem strData_append (s t : String) : (s ++ t).data = s.data ++ t.data := rfl

theorem suffix_map_char (f : Char → Char) {t l : List Char} (h : t <:+ l) :
    t.map f <:+ l.map f := by
  obtain ⟨p, rfl⟩ := h
  exact ⟨p.map f, (List.map_append f p t).symm⟩

theorem last_of_suffix_concat {α : Type} {l pre : List α} {c : α}
    (h : (pre ++ [c]) <:+ l) : l.getLast? = some c := by
  obtain ⟨p, rfl⟩ := h
  rw [← List.append_assoc]
  exact List.getLast?_concat _

/-- A path that literally ends in `"index.html"` passes the source's
case-insensitive entry-point test. -/
theorem entryCheck_of_endsWith {p : String} (h : endsWithJs p "index.html" = true) :
    entryCheck p = true := by
  unfold endsWithJs at h
  unfold entryCheck endsWithJs jsToLower
  rw [decide_eq_true_iff] at h ⊢
  have hm := suffix_map_char Char.toLower h
  have heq : ("index.html".data : List Char).map Char.toLower = "index.html".data := by
    decide
  rw [heq] at hm
  exact hm

/-- In a well-formed archive an entry whose path ends in `"index.html"`
cannot be a directory entry (directory paths end in a slash). -/
theorem not_dir_of_endsWith_index {e : ZipEntry}
    (hdir : e.dir = true → endsWithJs e.path "/" = true)
    (h : endsWithJs e.path "index.html" = true) : e.dir = false := by
  by_contra hc
  have hd : e.dir = true := by
    cases hval : e.dir with
    | false => exact absurd hval hc
    | true => rfl
  have hslash := hdir hd
  unfold endsWithJs at h hslash
  rw [decide_eq_true_iff] at h hslash
  have h1 : e.path.data.getLast? = some 'l' := by
    have : ("index.htm".data ++ ['l']) <:+ e.path.data := by simpa using h
    exact last_of_suffix_concat this
  have h2 : e.path.data.getLast? = some '/' := by
    have : (([] : List Char) ++ ['/']) <:+ e.path.data := by simpa using hslash
    exact last_of_suffix_concat this
  rw [h1] at h2
  simp at h2

theorem isErrLine_append (s t : String) (h : s.data ≠ []) :
    isErrLine (s ++ t) = isErrLine s := by
  unfold isErrLine
  rw [strData_append]
  cases hs : s.data with
  | nil => exact absurd hs h
  | cons c cs => simp

theorem freshUrl_ne_empty (store : List (String × String)) : freshUrl store ≠ "" := by
  intro h
  have hd := congrArg String.data h
  rw [freshUrl, strData_append] at hd
  simp at hd

theorem recordGet_isSome_of_mem_keys {fs : List (String × VirtualFile)} {k : String}
    (h : k ∈ recordKeys fs) : ∃ v, recordGet fs k = some v := by
  unfold recordKeys at h
  obtain ⟨pr, hpr, hk⟩ := List.mem_map.mp h
  have : (fs.find? (fun pr => pr.1 == k)).isSome := by
    rw [List.find?_isSome]
    exact ⟨pr, hpr, by simp [hk]⟩
  obtain ⟨pr2, hpr2⟩ := Option.isSome_iff_exists.mp this
  exact ⟨pr2.2, by rw [recordGet, hpr2]; rfl⟩

/-- Folding JS property assignments over fresh, pairwise-distinct keys
appends one pair per entry. -/
theorem buildFs_go (order : List ZipEntry) (acc : List (String × VirtualFile))
    (hdisj : ∀ e ∈ order, hasKey acc e.path = false)
    (hnd : (order.map ZipEntry.path).Nodup) :
    order.foldl (fun fs e => recordInsert fs e.path (toVirtualFile e)) acc
      = acc ++ order.map (fun e => (e.path, toVirtualFile e)) := by
  induction order generalizing acc with
  | nil => simp
  | cons e rest ih =>
    rw [List.map_cons, List.nodup_cons] at hnd
    have hnotin : e.path ∉ rest.map ZipEntry.path := hnd.1
    rw [List.foldl_cons, recordInsert, if_neg (by simp [hdisj e (by simp)])]
    rw [ih (acc ++ [(e.path, toVirtualFile e)]) ?_ hnd.2]
    · simp
    · intro e' he'
      have h1 : hasKey acc e'.path = false := hdisj e' (by simp [he'])
      have h2 : e.path ≠ e'.path := by
        intro hc
        exact hnotin (hc ▸ List.mem_map.mpr ⟨e', he', rfl⟩)
      unfold hasKey at h1 ⊢
      rw [List.any_append, h1]
      simp
      exact h2

/-- With pairwise-distinct paths, the decoded file mapping is exactly one
pair per entry in completion order. -/
theorem buildFs_eq_map (order : List ZipEntry)
    (hnd : (order.map ZipEntry.path).Nodup) :
    buildFs order = order.map (fun e => (e.path, toVirtualFile e)) := by
  unfold buildFs
  rw [buildFs_go order [] (by intro e _; rfl) hnd]
  simp

theorem handleRun_eq (project : LocalProject) (dl : DownloadResult)
    (order : List ZipEntry) (store : List (String × String))
    (hfiles : project.files ≠ []) :
    handleRunProject project dl order store =
      ⟨(runSteps (project.files.headD "") dl order (freshUrl store)).1.foldl
          applyPatch project,
        store ++ (runSteps (project.files.headD "") dl order (freshUrl store)).2⟩ := by
  unfold handleRunProject
  rw [if_neg (by simp [List.isEmpty_iff, hfiles])]

theorem keys_buildFs (order : List ZipEntry)
    (hnd : (order.map ZipEntry.path).Nodup) :
    recordKeys (buildFs order) = order.map ZipEntry.path := by
  rw [buildFs_eq_map order hnd]
  unfold recordKeys
  rw [List.map_map]
  rfl

theorem order_paths_nodup {entries order : List ZipEntry}
    (hwf : wellFormedEntries entries)
    (hperm : order.Perm (nonDirEntries entries)) :
    (order.map ZipEntry.path).Nodup := by
  have hsub : List.Sublist (nonDirEntries entries) entries := List.filter_sublist entries
  have hnd1 : ((nonDirEntries entries).map ZipEntry.path).Nodup :=
    (hsub.map ZipEntry.path).nodup hwf.1
  exact ((hperm.map ZipEntry.path).nodup_iff).mpr hnd1

/-- Claim C1: for every well-formed zip blob whose decoded entries include a
path ending in `index.html`, running the pipeline (`handleRunProject`)
terminates with the project status equal to `running` and a non-empty
preview handle attached to the project. -/
theorem c1_zip_with_index_runs
    (project : LocalProject) (blob : Blob) (entries order : List ZipEntry)
    (store : List (String × String))
    (hfiles : project.files ≠ [])
    (hdec : blob.decode = Except.ok entries)
    (hwf : wellFormedEntries entries)
    (hperm : order.Perm (nonDirEntries entries))
    (hidx : ∃ e ∈ entries, endsWithJs e.path "index.html" = true) :
    (handleRunProject project (DownloadResult.success blob) order store).project.status
        = ProjectStatus.running ∧
    ∃ u, (handleRunProject project (DownloadResult.success blob) order store).project.previewUrl
        = some u ∧ u ≠ "" := by
  obtain ⟨e, he, hew⟩ := hidx
  have hdir : e.dir = false := not_dir_of_endsWith_index (hwf.2 e he) hew
  have hmemnd : e ∈ nonDirEntries entries := by
    unfold nonDirEntries
    exact List.mem_filter.mpr ⟨he, by simp [hdir]⟩
  have hmemo : e ∈ order := hperm.mem_iff.mpr hmemnd
  have hnd := order_paths_nodup hwf hperm
  have hkmem : e.path ∈ recordKeys (buildFs order) := by
    rw [keys_buildFs order hnd]
    exact List.mem_map.mpr ⟨e, hmemo, rfl⟩
  have hsome : (findIndexKey (buildFs order)).isSome := by
    unfold findIndexKey
    rw [List.find?_isSome]
    exact ⟨e.path, hkmem, entryCheck_of_endsWith hew⟩
  obtain ⟨k, hk⟩ := Option.isSome_iff_exists.mp hsome
  rw [handleRun_eq project _ order store hfiles]
  simp only [runSteps, hdec, hk]
  refine ⟨by simp [applyPatch], freshUrl store, by simp [applyPatch], freshUrl_ne_empty store⟩

/-- The final path segment: the characters after the last slash. -/
def finalSegment (k : String) : String :=
  ⟨(k.data.reverse.takeWhile (fun c => c != '/')).reverse⟩

/-- Formalisation of the claim wording for the validator: the path's final
segment case-insensitively matches (equals) `index.html`. -/
def finalSegMatchesIndex (k : String) : Bool :=
  jsToLower (finalSegment k) == "index.html"

/-- Claim C2, counterexample: for the decoded archive holding the single
path `myindex.html`, validation succeeds although no path's final segment
case-insensitively matches `index.html` — the source tests a suffix of the
whole path, not the final segment. -/
theorem c2_counterexample :
    validateFs (buildFs [⟨"myindex.html", false, "x"⟩]) = true ∧
    ∀ k ∈ recordKeys (buildFs [⟨"myindex.html", false, "x"⟩]),
      finalSegMatchesIndex k = false := by
  decide

/-- Claim C2 (amended): for every decoded archive, validation succeeds if
and only if at least one decoded path, lowercased, ends with the string
`index.html` (a suffix match on the whole path, not an equality test on
the final segment); when no such path exists the run fails with the
missing-entry-point error. -/
theorem c2_validation_iff :
    (∀ fs : List (String × VirtualFile),
      validateFs fs = true ↔ ∃ k ∈ recordKeys fs, entryCheck k = true) ∧
    (∀ (project : LocalProject) (blob : Blob) (entries order : List ZipEntry)
        (store : List (String × String)),
      project.files ≠ [] → blob.decode = Except.ok entries →
      validateFs (buildFs order) = false →
      (handleRunProject project (DownloadResult.success blob) order store).project.status
          = ProjectStatus.error ∧
      (handleRunProject project (DownloadResult.success blob) order store).project.logs.getLast?
          = some ("! ERRO: " ++ missingIndexMsg)) := by
  constructor
  · intro fs
    unfold validateFs findIndexKey
    rw [List.find?_isSome]
  · intro project blob entries order store hfiles hdec hval
    have hnone : findIndexKey (buildFs order) = none := by
      unfold validateFs at hval
      exact Option.not_isSome_iff_eq_none.mp (by simp [hval])
    rw [handleRun_eq project _ order store hfiles]
    simp only [runSteps, hdec, hnone]
    constructor
    · simp [applyPatch, errPatch]
    · simp [applyPatch, errPatch]

/-- Claim C3, counterexample: the archive holding the single path
`INDEX.HTML` contains no path that (case-sensitively) ends in
`index.html`, yet the pipeline ends `running` with a preview handle
attached, because the source lowercases paths before the suffix test. -/
theorem c3_counterexample :
    (∀ e ∈ [(⟨"INDEX.HTML", false, "<p>x</p>"⟩ : ZipEntry)],
      endsWithJs e.path "index.html" = false) ∧
    (handleRunProject
        ⟨"1", "Project #1", ["site.zip"], ProjectStatus.available, none, [], none⟩
        (DownloadResult.success ⟨"0.2", Except.ok [⟨"INDEX.HTML", false, "<p>x</p>"⟩]⟩)
        [⟨"INDEX.HTML", false, "<p>x</p>"⟩] []).project.status = ProjectStatus.running ∧
    (handleRunProject
        ⟨"1", "Project #1", ["site.zip"], ProjectStatus.available, none, [], none⟩
        (DownloadResult.success ⟨"0.2", Except.ok [⟨"INDEX.HTML", false, "<p>x</p>"⟩]⟩)
        [⟨"INDEX.HTML", false, "<p>x</p>"⟩] []).project.previewUrl ≠ none := by
  decide

/-- Claim C3 (amended): for every zip blob none of whose decoded entry
paths case-insensitively ends in `index.html`, the pipeline ends with
status `error`, the log gains the missing-entry-point line, and no
preview handle is attached during that run. -/
theorem c3_no_entry_point_errors
    (project : LocalProject) (blob : Blob) (entries order : List ZipEntry)
    (store : List (String × String))
    (hfiles : project.files ≠ [])
    (hdec : blob.decode = Except.ok entries)
    (hwf : wellFormedEntries entries)
    (hperm : order.Perm (nonDirEntries entries))
    (hno : ∀ e ∈ entries, entryCheck e.path = false) :
    (handleRunProject project (DownloadResult.success blob) order store).project.status
        = ProjectStatus.error ∧
    (handleRunProject project (DownloadResult.success blob) order store).project.logs.getLast?
        = some ("! ERRO: " ++ missingIndexMsg) ∧
    (handleRunProject project (DownloadResult.success blob) order store).project.previewUrl
        = project.previewUrl ∧
    (handleRunProject project (DownloadResult.success blob) order store).store = store := by
  have hnd := order_paths_nodup hwf hperm
  have hnone : findIndexKey (buildFs order) = none := by
    unfold findIndexKey
    rw [List.find?_eq_none]
    intro k hk
    rw [keys_buildFs order hnd] at hk
    obtain ⟨e, he, rfl⟩ := List.mem_map.mp hk
    have : e ∈ nonDirEntries entries := hperm.mem_iff.mp he
    have hmem : e ∈ entries := List.mem_of_mem_filter this
    simp [hno e hmem]
  rw [handleRun_eq project _ order store hfiles]
  simp only [runSteps, hdec, hnone]
  refine ⟨by simp [applyPatch, errPatch], by simp [applyPatch, errPatch],
    by simp [applyPatch, errPatch], by simp⟩

/-- Claim C4: for every blob whose bytes are not a well-formed zip, the
decode step fails and the pipeline ends with status `error` without
performing the validation or rendering steps: the run's status sequence
is exactly downloading, extracting, error; no preview handle is created
and none is attached. -/
theorem c4_malformed_blob_aborts
    (project : LocalProject) (blob : Blob) (msg : String)
    (order : List ZipEntry) (store : List (String × String))
    (hfiles : project.files ≠ [])
    (hdec : blob.decode = Except.error msg) :
    (handleRunProject project (DownloadResult.success blob) order store).project.status
        = ProjectStatus.error ∧
    (handleRunProject project (DownloadResult.success blob) order store).store = store ∧
    (handleRunProject project (DownloadResult.success blob) order store).project.previewUrl
        = project.previewUrl ∧
    (handleRunProject project (DownloadResult.success blob) order store).project.fileSystem
        = project.fileSystem ∧
    statusTrace project (DownloadResult.success blob) order
        = [ProjectStatus.downloading, ProjectStatus.extracting, ProjectStatus.error] ∧
    (handleRunProject project (DownloadResult.success blob) order store).project.logs.getLast?
        = some ("! ERRO: " ++ msg) := by
  have htr : statusTrace project (DownloadResult.success blob) order
      = [ProjectStatus.downloading, ProjectStatus.extracting, ProjectStatus.error] := by
    unfold statusTrace
    rw [if_neg (by simp [List.isEmpty_iff, hfiles])]
    simp [runSteps, hdec, errPatch]
  rw [handleRun_eq project _ order store hfiles]
  simp only [runSteps, hdec]
  refine ⟨by simp [applyPatch, errPatch], by simp, by simp [applyPatch, errPatch],
    by simp [applyPatch, errPatch], htr, by simp [applyPatch, errPatch]⟩

/-- Claim C5: decoding the `N` non-directory entries of a well-formed
archive and joining the decodes yields a mapping with exactly `N` keys —
one per non-directory entry, each stored with content-type text —
regardless of the completion order of the entry decodes. -/
theorem c5_join_complete_mapping
    (entries order : List ZipEntry)
    (hwf : wellFormedEntries entries)
    (hperm : order.Perm (nonDirEntries entries)) :
    (recordKeys (buildFs order)).length = (nonDirEntries entries).length ∧
    (recordKeys (buildFs order)).Perm ((nonDirEntries entries).map ZipEntry.path) ∧
    ∀ pr ∈ buildFs order, pr.2.type = VType.text ∧ pr.2.path = pr.1 := by
  have hnd := order_paths_nodup hwf hperm
  have hpermk : (recordKeys (buildFs order)).Perm
      ((nonDirEntries entries).map ZipEntry.path) := by
    rw [keys_buildFs order hnd]
    exact hperm.map ZipEntry.path
  refine ⟨by rw [hpermk.length_eq, List.length_map], hpermk, ?_⟩
  intro pr hpr
  rw [buildFs_eq_map order hnd] at hpr
  obtain ⟨e, _, rfl⟩ := List.mem_map.mp hpr
  exact ⟨rfl, rfl⟩

/-- Claim C6: during a single run the status moves only forward through
the fixed sequence downloading, extracting, (validating), running, with
`error` admissible from any non-terminal status; `running` and `error`
are terminal; every run starts by setting the status to `downloading`
and ends in a terminal status. -/
theorem c6_status_machine
    (project : LocalProject) (dl : DownloadResult) (order : List ZipEntry)
    (hfiles : project.files ≠ []) :
    (statusTrace project dl order).head? = some ProjectStatus.downloading ∧
    chainOk (statusTrace project dl order) = true ∧
    ∃ s, (statusTrace project dl order).getLast? = some s ∧ isTerminal s = true := by
  unfold statusTrace
  rw [if_neg (by simp [List.isEmpty_iff, hfiles])]
  cases dl with
  | failure msg =>
    exact ⟨rfl, rfl, ProjectStatus.error, rfl, rfl⟩
  | success blob =>
    cases hdec : blob.decode with
    | error msg =>
      simp only [runSteps, hdec]
      exact ⟨rfl, rfl, ProjectStatus.error, rfl, rfl⟩
    | ok entries =>
      cases hfind : findIndexKey (buildFs order) with
      | none =>
        simp only [runSteps, hdec, hfind]
        exact ⟨rfl, rfl, ProjectStatus.error, rfl, rfl⟩
      | some k =>
        simp only [runSteps, hdec, hfind]
        exact ⟨rfl, rfl, ProjectStatus.running, rfl, rfl⟩

theorem applyPatch_logs_append (p : LocalProject) (q : ProjectPatch) :
    ∃ t, (applyPatch p q).logs = p.logs ++ t := by
  unfold applyPatch
  cases hq : q.logs with
  | none => exact ⟨[], by simp⟩
  | some ls => exact ⟨ls, by simp⟩

theorem foldl_applyPatch_logs (ps : List ProjectPatch) (p : LocalProject) :
    ∃ t, (ps.foldl applyPatch p).logs = p.logs ++ t := by
  induction ps generalizing p with
  | nil => exact ⟨[], by simp⟩
  | cons q rest ih =>
    obtain ⟨t2, h2⟩ := ih (applyPatch p q)
    obtain ⟨t1, h1⟩ := applyPatch_logs_append p q
    exact ⟨t1 ++ t2, by rw [List.foldl_cons, h2, h1, List.append_assoc]⟩

/-- Claim C7, counterexample: starting a new run does not reset the log.
Here a project whose log holds the line left by the listing refresh is
re-run; after the run its log still begins with that old line, so the
new run appended to the previous log instead of resetting it. -/
theorem c7_counterexample :
    (handleRunProject
        ⟨"1", "Project #1", ["site.zip"], ProjectStatus.available, none,
          ["Projeto sincronizado e pronto."], none⟩
        (DownloadResult.failure "net down") [] []).project.status
      = ProjectStatus.error ∧
    (handleRunProject
        ⟨"1", "Project #1", ["site.zip"], ProjectStatus.available, none,
          ["Projeto sincronizado e pronto."], none⟩
        (DownloadResult.failure "net down") [] []).project.logs.head?
      = some "Projeto sincronizado e pronto." := by
  decide

/-- Claim C7 (amended): within one run every status transition appends
its log lines to the project's existing log rather than replacing it,
and the log is never reset by the pipeline — in particular a new run
does not reset it: the previous log contents always remain as a prefix. -/
theorem c7_logs_append_only :
    (∀ (p : LocalProject) (q : ProjectPatch), ∃ t, (applyPatch p q).logs = p.logs ++ t) ∧
    (∀ (project : LocalProject) (dl : DownloadResult) (order : List ZipEntry)
        (store : List (String × String)),
      ∃ t, (handleRunProject project dl order store).project.logs = project.logs ++ t) := by
  refine ⟨applyPatch_logs_append, ?_⟩
  intro project dl order store
  unfold handleRunProject
  by_cases h : project.files.isEmpty
  · rw [if_pos h]
    exact ⟨[], by simp⟩
  · rw [if_neg h]
    exact foldl_applyPatch_logs _ project

/-- Claim C8: when the pipeline succeeds, the content registered behind
the attached preview handle is the content stored in the mapping under
the first key that passes the entry-point test in a single pass over the
mapping's keys (the `indexKey` that `find` returns). -/
theorem c8_preview_content
    (project : LocalProject) (blob : Blob) (entries order : List ZipEntry)
    (store : List (String × String)) (k : String)
    (hfiles : project.files ≠ [])
    (hdec : blob.decode = Except.ok entries)
    (hfind : findIndexKey (buildFs order) = some k) :
    ∃ vf, recordGet (buildFs order) k = some vf ∧
      (handleRunProject project (DownloadResult.success blob) order store).project.status
          = ProjectStatus.running ∧
      (handleRunProject project (DownloadResult.success blob) order store).project.previewUrl
          = some (freshUrl store) ∧
      (handleRunProject project (DownloadResult.success blob) order store).store
          = store ++ [(freshUrl store, vf.content)] := by
  have hkmem : k ∈ recordKeys (buildFs order) := by
    unfold findIndexKey at hfind
    exact List.mem_of_find?_eq_some hfind
  obtain ⟨vf, hvf⟩ := recordGet_isSome_of_mem_keys hkmem
  refine ⟨vf, hvf, ?_, ?_, ?_⟩ <;>
  · rw [handleRun_eq project _ order store hfiles]
    simp [runSteps, hdec, hfind, hvf, applyPatch]

theorem isErrLine_err (msg : String) : isErrLine ("! ERRO: " ++ msg) = true := by
  rw [isErrLine_append _ _ (by decide)]
  decide

theorem isErrLine_dl (s : String) : isErrLine ("> Baixando pacote: " ++ s) = false := by
  rw [isErrLine_append _ _ (by decide)]
  decide

theorem isErrLine_zip (s : String) :
    isErrLine ("> ZIP recebido (" ++ s ++ " KB). Extraindo...") = false := by
  rw [isErrLine_append _ _ (by rw [strData_append]; simp)]
  rw [isErrLine_append _ _ (by decide)]
  decide

/-- Claim C10: when a run fails, the catch handler sets only the status
(to `error`) and appends exactly one log line prefixed with `!` (the last
line appended by the run); every other project field — in particular
`previewUrl` and `fileSystem` — keeps its previous value, and no blob URL
is registered, so a preview handle attached by an earlier successful run
of the same project remains attached after a failed re-run. -/
theorem c10_error_frame
    (project : LocalProject) (dl : DownloadResult) (order : List ZipEntry)
    (store : List (String × String))
    (hfiles : project.files ≠ [])
    (herr : (handleRunProject project dl order store).project.status = ProjectStatus.error) :
    (handleRunProject project dl order store).project.previewUrl = project.previewUrl ∧
    (handleRunProject project dl order store).project.fileSystem = project.fileSystem ∧
    (handleRunProject project dl order store).project.id = project.id ∧
    (handleRunProject project dl order store).project.name = project.name ∧
    (handleRunProject project dl order store).project.files = project.files ∧
    (handleRunProject project dl order store).store = store ∧
    ∃ t, (handleRunProject project dl order store).project.logs = project.logs ++ t ∧
      (t.filter isErrLine).length = 1 ∧
      ∃ msg, t.getLast? = some ("! ERRO: " ++ msg) := by
  rw [handleRun_eq project dl order store hfiles] at herr ⊢
  cases dl with
  | failure msg =>
    simp only [runSteps]
    refine ⟨by simp [applyPatch, errPatch], by simp [applyPatch, errPatch],
      by simp [applyPatch, errPatch], by simp [applyPatch, errPatch],
      by simp [applyPatch, errPatch], by simp,
      ["> Baixando pacote: " ++ project.files.headD "", "! ERRO: " ++ msg],
      by simp [applyPatch, errPatch], ?_, msg, rfl⟩
    rw [List.filter_cons, List.filter_cons]
    simp [isErrLine_dl, isErrLine_err]
  | success blob =>
    cases hdec : blob.decode with
    | error msg =>
      simp only [runSteps, hdec]
      refine ⟨by simp [applyPatch, errPatch], by simp [applyPatch, errPatch],
        by simp [applyPatch, errPatch], by simp [applyPatch, errPatch],
        by simp [applyPatch, errPatch], by simp,
        ["> Baixando pacote: " ++ project.files.headD "",
          "> ZIP recebido (" ++ blob.sizeDisplay ++ " KB). Extraindo...",
          "! ERRO: " ++ msg],
        by simp [applyPatch, errPatch], ?_, msg, rfl⟩
      rw [List.filter_cons, List.filter_cons, List.filter_cons]
      simp [isErrLine_dl, isErrLine_zip, isErrLine_err]
    | ok entries =>
      cases hfind : findIndexKey (buildFs order) with
      | none =>
        simp only [runSteps, hdec, hfind]
        refine ⟨by simp [applyPatch, errPatch], by simp [applyPatch, errPatch],
          by simp [applyPatch, errPatch], by simp [applyPatch, errPatch],
          by simp [applyPatch, errPatch], by simp,
          ["> Baixando pacote: " ++ project.files.headD "",
            "> ZIP recebido (" ++ blob.sizeDisplay ++ " KB). Extraindo...",
            "! ERRO: " ++ missingIndexMsg],
          by simp [applyPatch, errPatch], ?_, missingIndexMsg, rfl⟩
        rw [List.filter_cons, List.filter_cons, List.filter_cons]
        simp [isErrLine_dl, isErrLine_zip, isErrLine_err]
      | some k =>
        simp only [runSteps, hdec, hfind] at herr
        simp [applyPatch] at herr

/-- A remote project record returned by the listing endpoint
(`RemoteProject` in `src/unnamed/part_001`). -/
structure RemoteProject where
  id : String
  files : List String
deriving DecidableEq, Repr

/-- An HTTP request as built by the service functions: URL, method and
header list. -/
structure Request where
  url : String
  method : String
  headers : List (String × String)
deriving DecidableEq, Repr

/-- The API base URL of `src/unnamed/part_001`. -/
def API_BASE : String := "https://lineable-maricela-primly.ngrok-free.dev"

/-- The fixed tunneling-proxy header sent on every request. -/
def ngrokHeader : String × String := ("ngrok-skip-browser-warning", "true")

/-- Request built by the first `projectsService.listProjects` variant in
`src/unnamed/part_001`. -/
def listProjectsRequestA : Request :=
  ⟨API_BASE ++ "/projects/", "GET", [ngrokHeader, ("Accept", "application/json")]⟩

/-- Request built by the second `projectsService.listProjects` variant. -/
def listProjectsRequestB : Request :=
  ⟨API_BASE ++ "/projects/", "GET", [ngrokHeader]⟩

/-- Request built by `projectsService.downloadZip` (identical in both
variants). -/
def downloadZipRequest (id fileName : String) : Request :=
  ⟨API_BASE ++ "/projects/" ++ id ++ "/download/" ++ fileName, "GET", [ngrokHeader]⟩

/-- A response to the listing request: the `ok` flag, the HTTP status,
and the outcome of `response.json()`. -/
structure ListResponse where
  ok : Bool
  status : Nat
  json : Except String (List RemoteProject)
deriving Repr

/-- A response to the download request: the `ok` flag, the HTTP status,
and the blob `response.blob()` yields. -/
structure BlobResponse where
  ok : Bool
  status : Nat
  blob : Blob
deriving Repr

/-- Message thrown by the first `listProjects` variant when the fetch or
the JSON parse fails. -/
def connFailMsg : String :=
  "Não foi possível conectar ao servidor de projetos. Verifique se o túnel ngrok está ativo."

/-- First `listProjects` variant of `src/unnamed/part_001`: a non-ok
response logs a warning and returns the empty list; fetch or JSON-parse
failures are caught and replaced with the connection message. -/
def listProjectsA (fetchResult : Except String ListResponse) :
    Except String (List RemoteProject) :=
  match fetchResult with
  | Except.error _ => Except.error connFailMsg
  | Except.ok r =>
    if r.ok then
      match r.json with
      | Except.error _ => Except.error connFailMsg
      | Except.ok v => Except.ok v
    else Except.ok []

/-- Second `listProjects` variant of `src/unnamed/part_001` (also the
variant in `src/unnamed/part_000`): a non-ok response throws. -/
def listProjectsB (fetchResult : Except String ListResponse) :
    Except String (List RemoteProject) :=
  match fetchResult with
  | Except.error e => Except.error e
  | Except.ok r => if r.ok then r.json else Except.error "Falha ao listar projetos"

/-- First `downloadZip` variant: a non-ok response throws a
status-bearing message; the catch only logs and rethrows. -/
def downloadZipA (fetchResult : Except String BlobResponse) : Except String Blob :=
  match fetchResult with
  | Except.error e => Except.error e
  | Except.ok r =>
    if r.ok then Except.ok r.blob
    else Except.error ("Erro ao baixar arquivo (" ++ toString r.status ++ ")")

/-- Second `downloadZip` variant. -/
def downloadZipB (fetchResult : Except String BlobResponse) : Except String Blob :=
  match fetchResult with
  | Except.error e => Except.error e
  | Except.ok r => if r.ok then Except.ok r.blob else Except.error "Falha ao baixar ZIP"

/-- Claim C9, counterexample: in the first service variant of
`src/unnamed/part_001`, `listProjects` faced with a non-success response
returns a result — the empty listing — instead of raising an error. -/
theorem c9_counterexample :
    listProjectsA (Except.ok ⟨false, 502, Except.ok []⟩) = Except.ok [] := rfl

/-- Claim C9 (amended): every request built by `listProjects` and
`downloadZip` carries the fixed tunneling-proxy header, and a non-success
HTTP status makes `downloadZip` fail in both service variants and makes
`listProjects` fail in the second variant; the first `listProjects`
variant instead returns an empty listing on a non-success status (only
fetch and JSON-parse failures raise there). -/
theorem c9_header_and_failure :
    (ngrokHeader ∈ listProjectsRequestA.headers ∧
      ngrokHeader ∈ listProjectsRequestB.headers ∧
      ∀ id fileName, ngrokHeader ∈ (downloadZipRequest id fileName).headers) ∧
    (∀ r : ListResponse, r.ok = false →
      listProjectsB (Except.ok r) = Except.error "Falha ao listar projetos" ∧
      listProjectsA (Except.ok r) = Except.ok []) ∧
    (∀ r : BlobResponse, r.ok = false →
      downloadZipA (Except.ok r)
          = Except.error ("Erro ao baixar arquivo (" ++ toString r.status ++ ")") ∧
      downloadZipB (Except.ok r) = Except.error "Falha ao baixar ZIP") := by
  refine ⟨⟨by simp [listProjectsRequestA], by simp [listProjectsRequestB],
    fun id fileName => by simp [downloadZipRequest]⟩, ?_, ?_⟩
  · intro r h
    constructor <;> simp [listProjectsB, listProjectsA, h]
  · intro r h
    constructor <;> simp [downloadZipA, downloadZipB, h]

/-- Claim C9 witness: the second-variant calls fail on concrete non-ok
responses. -/
theorem c9_header_and_failure_witness :
    listProjectsB (Except.ok ⟨false, 502, Except.ok []⟩)
        = Except.error "Falha ao listar projetos" ∧
    downloadZipB (Except.ok ⟨false, 404, ⟨"", Except.error "x"⟩⟩)
        = Except.error "Falha ao baixar ZIP" :=
  ⟨(c9_header_and_failure.2.1 ⟨false, 502, Except.ok []⟩ rfl).1,
    (c9_header_and_failure.2.2 ⟨false, 404, ⟨"", Except.error "x"⟩⟩ rfl).2⟩

/-- A project record as mapped from the listing response in `src/App.tsx`. -/
def demoProject : LocalProject :=
  ⟨"1", "Project #1", ["site.zip"], ProjectStatus.available, none,
    ["Projeto sincronizado e pronto."], none⟩

/-- The specification's scenario archive
`{"index.html": "<h1>hi</h1>", "package.json": "{}"}`. -/
def demoEntries : List ZipEntry :=
  [⟨"index.html", false, "<h1>hi</h1>"⟩, ⟨"package.json", false, "{}"⟩]

/-- A well-formed blob decoding to the scenario archive. -/
def demoBlob : Blob := ⟨"1.2", Except.ok demoEntries⟩

/-- The specification's scenario archive `{"readme.md": "hello"}`. -/
def readmeEntries : List ZipEntry := [⟨"readme.md", false, "hello"⟩]

/-- A well-formed blob decoding to the readme-only archive. -/
def readmeBlob : Blob := ⟨"0.5", Except.ok readmeEntries⟩

/-- A malformed blob on which the zip decode fails. -/
def badBlob : Blob :=
  ⟨"0.1", Except.error "Can\x27t find end of central directory"⟩

/-- Claim C1 witness: the scenario archive runs to `running` with a
non-empty preview handle. -/
theorem c1_zip_with_index_runs_witness :
    (handleRunProject demoProject (DownloadResult.success demoBlob)
        (nonDirEntries demoEntries) []).project.status = ProjectStatus.running ∧
    ∃ u, (handleRunProject demoProject (DownloadResult.success demoBlob)
        (nonDirEntries demoEntries) []).project.previewUrl = some u ∧ u ≠ "" :=
  c1_zip_with_index_runs demoProject demoBlob demoEntries (nonDirEntries demoEntries) []
    (by decide) rfl (by decide) (List.Perm.refl _)
    ⟨⟨"index.html", false, "<h1>hi</h1>"⟩, by decide, by decide⟩

/-- Claim C2 witness: a singleton `index.html` mapping validates, and the
readme-only archive runs to `error`. -/
theorem c2_validation_iff_witness :
    validateFs (buildFs [⟨"index.html", false, "<h1>hi</h1>"⟩]) = true ∧
    (handleRunProject demoProject (DownloadResult.success readmeBlob)
        (nonDirEntries readmeEntries) []).project.status = ProjectStatus.error :=
  ⟨(c2_validation_iff.1 (buildFs [⟨"index.html", false, "<h1>hi</h1>"⟩])).mpr
      ⟨"index.html", by decide, by decide⟩,
    (c2_validation_iff.2 demoProject readmeBlob readmeEntries
      (nonDirEntries readmeEntries) [] (by decide) rfl (by decide)).1⟩

/-- Claim C3 witness: the readme-only archive ends in `error` with the
missing-entry-point log line and no preview handle attached. -/
theorem c3_no_entry_point_errors_witness :
    (handleRunProject demoProject (DownloadResult.success readmeBlob)
        (nonDirEntries readmeEntries) []).project.status = ProjectStatus.error ∧
    (handleRunProject demoProject (DownloadResult.success readmeBlob)
        (nonDirEntries readmeEntries) []).project.logs.getLast?
        = some ("! ERRO: " ++ missingIndexMsg) ∧
    (handleRunProject demoProject (DownloadResult.success readmeBlob)
        (nonDirEntries readmeEntries) []).project.previewUrl = demoProject.previewUrl ∧
    (handleRunProject demoProject (DownloadResult.success readmeBlob)
        (nonDirEntries readmeEntries) []).store = [] :=
  c3_no_entry_point_errors demoProject readmeBlob readmeEntries
    (nonDirEntries readmeEntries) [] (by decide) rfl (by decide)
    (List.Perm.refl _) (by decide)

/-- Claim C4 witness: a malformed blob ends the run in `error` after the
trace downloading, extracting, error, with no preview handle created. -/
theorem c4_malformed_blob_aborts_witness :
    (handleRunProject demoProject (DownloadResult.success badBlob) [] []).project.status
        = ProjectStatus.error ∧
    (handleRunProject demoProject (DownloadResult.success badBlob) [] []).store = [] ∧
    (handleRunProject demoProject (DownloadResult.success badBlob) [] []).project.previewUrl
        = demoProject.previewUrl ∧
    (handleRunProject demoProject (DownloadResult.success badBlob) [] []).project.fileSystem
        = demoProject.fileSystem ∧
    statusTrace demoProject (DownloadResult.success badBlob) []
        = [ProjectStatus.downloading, ProjectStatus.extracting, ProjectStatus.error] ∧
    (handleRunProject demoProject (DownloadResult.success badBlob) [] []).project.logs.getLast?
        = some ("! ERRO: " ++ "Can\x27t find end of central directory") :=
  c4_malformed_blob_aborts demoProject badBlob "Can\x27t find end of central directory"
    [] [] (by decide) rfl

/-- Claim C5 witness: joining the decodes of the scenario archive's two
entries yields a two-key mapping of text files. -/
theorem c5_join_complete_mapping_witness :
    (recordKeys (buildFs (nonDirEntries demoEntries))).length
        = (nonDirEntries demoEntries).length ∧
    (recordKeys (buildFs (nonDirEntries demoEntries))).Perm
        ((nonDirEntries demoEntries).map ZipEntry.path) ∧
    ∀ pr ∈ buildFs (nonDirEntries demoEntries),
      pr.2.type = VType.text ∧ pr.2.path = pr.1 :=
  c5_join_complete_mapping demoEntries (nonDirEntries demoEntries)
    (by decide) (List.Perm.refl _)

/-- Claim C6 witness: a failed download yields the trace downloading,
error — starting at `downloading` and ending terminal. -/
theorem c6_status_machine_witness :
    (statusTrace demoProject (DownloadResult.failure "net down") []).head?
        = some ProjectStatus.downloading ∧
    chainOk (statusTrace demoProject (DownloadResult.failure "net down") []) = true ∧
    ∃ s, (statusTrace demoProject (DownloadResult.failure "net down") []).getLast?
        = some s ∧ isTerminal s = true :=
  c6_status_machine demoProject (DownloadResult.failure "net down") [] (by decide)

/-- Claim C8 witness: on the specification's scenario archive the
pipeline reaches `running` and the content behind the preview handle is
`<h1>hi</h1>`. -/
theorem c8_preview_content_witness :
    (handleRunProject demoProject (DownloadResult.success demoBlob)
        (nonDirEntries demoEntries) []).project.status = ProjectStatus.running ∧
    (handleRunProject demoProject (DownloadResult.success demoBlob)
        (nonDirEntries demoEntries) []).store
        = [("blob:devhub-0", "<h1>hi</h1>")] := by
  obtain ⟨vf, hget, hst, hurl, hstore⟩ :=
    c8_preview_content demoProject demoBlob demoEntries (nonDirEntries demoEntries) []
      "index.html" (by decide) rfl (by decide)
  have hc : recordGet (buildFs (nonDirEntries demoEntries)) "index.html"
      = some ⟨"index.html", "<h1>hi</h1>", VType.text⟩ := by decide
  have hvf : vf = ⟨"index.html", "<h1>hi</h1>", VType.text⟩ :=
    Option.some_inj.mp (hget.symm.trans hc)
  refine ⟨hst, ?_⟩
  rw [hstore, hvf]
  rfl

/-- Claim C10 witness: after a failed re-run of a project, the run report
keeps all frame fields and appends exactly one error line. -/
theorem c10_error_frame_witness :
    (handleRunProject demoProject (DownloadResult.failure "net down") [] []).project.previewUrl
        = demoProject.previewUrl ∧
    (handleRunProject demoProject (DownloadResult.failure "net down") [] []).project.fileSystem
        = demoProject.fileSystem ∧
    (handleRunProject demoProject (DownloadResult.failure "net down") [] []).project.id
        = demoProject.id ∧
    (handleRunProject demoProject (DownloadResult.failure "net down") [] []).project.name
        = demoProject.name ∧
    (handleRunProject demoProject (DownloadResult.failure "net down") [] []).project.files
        = demoProject.files ∧
    (handleRunProject demoProject (DownloadResult.failure "net down") [] []).store = [] ∧
    ∃ t, (handleRunProject demoProject (DownloadResult.failure "net down") [] []).project.logs
          = demoProject.logs ++ t ∧
      (t.filter isErrLine).length = 1 ∧
      ∃ msg, t.getLast? = some ("! ERRO: " ++ msg) :=
  c10_error_frame demoProject (DownloadResult.failure "net down") [] []
    (by decide) (by decide)
